import Mathlib

/-!
Verification development for the kodah front-end streaming pipeline.

The definitions below are a shallow embedding of the streaming-response
ingestion code of the repository: the sendMessage stream loop of
src/static/main.js (lines 284-367) and the sendMessage stream loop of
src/unnamed/part_000 (lines 311-451).  JS strings are modelled as Lean
String (a list of characters), JSON.parse as an executable JSON parser,
and the DOM/closure state mutated by each loop as explicit structures.
-/

namespace Kodah

/-! ## JS string primitives -/

/-- Does the second list start with the first one?  Models the prefix test
underlying String.prototype.startsWith. -/
def listHasPfx : List Char → List Char → Bool
  | [], _ => true
  | _ :: _, [] => false
  | p :: ps, c :: cs => p = c && listHasPfx ps cs

/-- Index (from i) of the first occurrence of pat in the remaining text. -/
def firstOccurAux (pat : List Char) : Nat → List Char → Option Nat
  | i, [] => if pat.isEmpty then some i else none
  | i, c :: cs => if listHasPfx pat (c :: cs) then some i else firstOccurAux pat (i + 1) cs

/-- Models String.prototype.indexOf restricted to found/not-found with position. -/
def jsIndexOfSub (s pat : String) : Option Nat :=
  firstOccurAux pat.data 0 s.data

/-- Models String.prototype.includes (substring containment). -/
def jsIncludes (s pat : String) : Bool :=
  (jsIndexOfSub s pat).isSome

/-- Models String.prototype.startsWith. -/
def jsStartsWith (s p : String) : Bool :=
  listHasPfx p.data s.data

/-- Models String.prototype.slice(n) for a nonnegative index. -/
def jsDrop (s : String) (n : Nat) : String :=
  String.mk (s.data.drop n)

/-- Accumulator-based splitting on a separator character. -/
def splitOnCharAux (sep : Char) : List Char → List Char → List String
  | acc, [] => [String.mk acc.reverse]
  | acc, c :: cs =>
    if c = sep then String.mk acc.reverse :: splitOnCharAux sep [] cs
    else splitOnCharAux sep (c :: acc) cs

/-- Models chunk.split(newline): the empty string yields one empty piece, a
trailing separator yields a trailing empty piece. -/
def jsSplitNl (s : String) : List String :=
  splitOnCharAux '\n' [] s.data

/-- The WhiteSpace and LineTerminator code points removed by String.prototype.trim. -/
def jsWsChar (c : Char) : Bool :=
  ([9, 10, 11, 12, 13, 32, 160, 0x1680, 0x2000, 0x2001, 0x2002, 0x2003, 0x2004,
    0x2005, 0x2006, 0x2007, 0x2008, 0x2009, 0x200A, 0x2028, 0x2029, 0x202F,
    0x205F, 0x3000, 0xFEFF] : List Nat).contains c.toNat

/-- Models String.prototype.trim. -/
def jsTrim (s : String) : String :=
  String.mk (((s.data.dropWhile jsWsChar).reverse.dropWhile jsWsChar).reverse)

/-! ## JSON values and JSON.parse

JSON.parse is a JS builtin; it is modelled here by an executable
recursive-descent parser for the JSON grammar (RFC 8259): values are null,
booleans, numbers, strings with the standard escapes, arrays and objects.
Numbers keep their source lexeme: the dispatch code under verification
never does arithmetic on them. -/

inductive JValue where
  | jnull
  | jbool (b : Bool)
  | jnum (raw : String)
  | jstr (s : String)
  | jarr (elems : List JValue)
  | jobj (members : List (String × JValue))

/-- JSON insignificant whitespace. -/
def skipWs : List Char → List Char
  | c :: cs => if c = ' ' ∨ c = '\t' ∨ c = '\n' ∨ c = '\r' then skipWs cs else c :: cs
  | [] => []

/-- Single-character JSON string escapes. -/
def escChar : Char → Option Char
  | '"' => some '"'
  | '\\' => some '\\'
  | '/' => some '/'
  | 'b' => some (Char.ofNat 8)
  | 'f' => some (Char.ofNat 12)
  | 'n' => some '\n'
  | 'r' => some '\r'
  | 't' => some '\t'
  | _ => none

/-- Hex digit value. -/
def hexVal (c : Char) : Option Nat :=
  if '0' ≤ c ∧ c ≤ '9' then some (c.toNat - 48)
  else if 'a' ≤ c ∧ c ≤ 'f' then some (c.toNat - 87)
  else if 'A' ≤ c ∧ c ≤ 'F' then some (c.toNat - 55)
  else none

/-- Body of a JSON string after the opening quote; returns the decoded
characters and the input after the closing quote.  Unescaped control
characters are rejected, as JSON.parse rejects them. -/
def parseStrBody : List Char → Option (List Char × List Char)
  | [] => none
  | '"' :: rest => some ([], rest)
  | '\\' :: rest =>
    match rest with
    | 'u' :: h1 :: h2 :: h3 :: h4 :: rest2 =>
      match hexVal h1, hexVal h2, hexVal h3, hexVal h4 with
      | some a, some b, some c, some d =>
        match parseStrBody rest2 with
        | some (s, r) => some (Char.ofNat (((a * 16 + b) * 16 + c) * 16 + d) :: s, r)
        | none => none
      | _, _, _, _ => none
    | e :: rest2 =>
      match escChar e with
      | some ec =>
        match parseStrBody rest2 with
        | some (s, r) => some (ec :: s, r)
        | none => none
      | none => none
    | [] => none
  | c :: rest =>
    if c.toNat < 32 then none
    else
      match parseStrBody rest with
      | some (s, r) => some (c :: s, r)
      | none => none

def isDigitCh (c : Char) : Bool := '0' ≤ c && c ≤ '9'

/-- Longest digit run at the front. -/
def takeDigits : List Char → (List Char × List Char)
  | [] => ([], [])
  | c :: cs =>
    if isDigitCh c then
      let (d, r) := takeDigits cs
      (c :: d, r)
    else ([], c :: cs)

/-- Integer part of a JSON number: 0, or a nonzero leading digit run. -/
def parseIntPart : List Char → Option (List Char × List Char)
  | [] => none
  | c :: cs =>
    if c = '0' then some ([c], cs)
    else if isDigitCh c then
      let (d, r) := takeDigits cs
      some (c :: d, r)
    else none

/-- Optional fraction part.  A dot without digits is left unconsumed, which
makes the surrounding structure parse fail, matching JSON.parse. -/
def parseFrac : List Char → (List Char × List Char)
  | '.' :: cs =>
    match takeDigits cs with
    | ([], _) => ([], '.' :: cs)
    | (d, r) => ('.' :: d, r)
  | cs => ([], cs)

/-- Optional exponent part, same leniency as parseFrac. -/
def parseExp : List Char → (List Char × List Char)
  | e :: cs =>
    if e = 'e' ∨ e = 'E' then
      match cs with
      | sgn :: cs2 =>
        if sgn = '+' ∨ sgn = '-' then
          match takeDigits cs2 with
          | ([], _) => ([], e :: sgn :: cs2)
          | (d, r) => (e :: sgn :: d, r)
        else
          match takeDigits (sgn :: cs2) with
          | ([], _) => ([], e :: sgn :: cs2)
          | (d, r) => (e :: d, r)
      | [] => ([], [e])
    else ([], e :: cs)
  | [] => ([], [])

/-- A JSON number, returned as its raw lexeme. -/
def parseNum : List Char → Option (String × List Char)
  | '-' :: cs =>
    match parseIntPart cs with
    | some (ip, r) =>
      let (fp, r1) := parseFrac r
      let (ep, r2) := parseExp r1
      some (String.mk ('-' :: (ip ++ fp ++ ep)), r2)
    | none => none
  | cs =>
    match parseIntPart cs with
    | some (ip, r) =>
      let (fp, r1) := parseFrac r
      let (ep, r2) := parseExp r1
      some (String.mk (ip ++ fp ++ ep), r2)
    | none => none

mutual

/-- A JSON value (fuel-indexed recursion; the fuel chosen in parseJson is
always sufficient, see the remark there). -/
def parseVal : Nat → List Char → Option (JValue × List Char)
  | 0, _ => none
  | fuel + 1, cs =>
    match skipWs cs with
    | 'n' :: 'u' :: 'l' :: 'l' :: r => some (JValue.jnull, r)
    | 't' :: 'r' :: 'u' :: 'e' :: r => some (JValue.jbool true, r)
    | 'f' :: 'a' :: 'l' :: 's' :: 'e' :: r => some (JValue.jbool false, r)
    | '"' :: r =>
      match parseStrBody r with
      | some (s, r1) => some (JValue.jstr (String.mk s), r1)
      | none => none
    | '\x7b' :: r =>
      match skipWs r with
      | '\x7d' :: r1 => some (JValue.jobj [], r1)
      | r1 =>
        match parseMembers fuel r1 with
        | some (ms, r2) => some (JValue.jobj ms, r2)
        | none => none
    | '[' :: r =>
      match skipWs r with
      | ']' :: r1 => some (JValue.jarr [], r1)
      | r1 =>
        match parseElems fuel r1 with
        | some (es, r2) => some (JValue.jarr es, r2)
        | none => none
    | cs1 =>
      match parseNum cs1 with
      | some (raw, r) => some (JValue.jnum raw, r)
      | none => none

/-- One or more "key": value members followed by the closing brace. -/
def parseMembers : Nat → List Char → Option (List (String × JValue) × List Char)
  | 0, _ => none
  | fuel + 1, cs =>
    match skipWs cs with
    | '"' :: r =>
      match parseStrBody r with
      | some (k, r1) =>
        match skipWs r1 with
        | ':' :: r2 =>
          match parseVal fuel r2 with
          | some (v, r3) =>
            match skipWs r3 with
            | ',' :: r4 =>
              match parseMembers fuel r4 with
              | some (ms, r5) => some ((String.mk k, v) :: ms, r5)
              | none => none
            | '\x7d' :: r4 => some ([(String.mk k, v)], r4)
            | _ => none
          | none => none
        | _ => none
      | none => none
    | _ => none

/-- One or more array elements followed by the closing bracket. -/
def parseElems : Nat → List Char → Option (List JValue × List Char)
  | 0, _ => none
  | fuel + 1, cs =>
    match parseVal fuel cs with
    | some (v, r) =>
      match skipWs r with
      | ',' :: r1 =>
        match parseElems fuel r1 with
        | some (es, r2) => some (v :: es, r2)
        | none => none
      | ']' :: r1 => some ([v], r1)
      | _ => none
    | none => none

end

/-- Models JSON.parse: one value, optionally surrounded by whitespace,
nothing else.  Throwing is modelled as none.  The fuel bound exceeds twice
the input length; every mutual call consumes at least one character per two
fuel units, so the bound is never the reason a parse fails. -/
def parseJson (s : String) : Option JValue :=
  match parseVal (2 * s.data.length + 2) s.data with
  | some (v, r) =>
    match skipWs r with
    | [] => some v
    | _ => none
  | none => none

/-- Property access data.k as JSON.parse produces it: objects yield the last
binding of a duplicated key (JS object literal semantics); any other value
yields undefined (none).  Accessing a property of null throws, but at every
access site in the source the throw is caught before any mutation, so it
coincides with the undefined case. -/
def lookupLast (ms : List (String × JValue)) (k : String) : Option JValue :=
  ms.foldl (fun acc m => if m.1 = k then some m.2 else acc) none

def jsGet (v : JValue) (k : String) : Option JValue :=
  match v with
  | JValue.jobj ms => lookupLast ms k
  | _ => none

/-- Digits of a number lexeme before any exponent marker. -/
def mantissaDigits (raw : String) : List Char :=
  (raw.data.takeWhile (fun c => ¬(c = 'e' ∨ c = 'E'))).filter isDigitCh

/-- A numeric lexeme denoting zero (0, -0, 0.0, 0e5, ...). -/
def numLexIsZero (raw : String) : Bool :=
  (mantissaDigits raw).all (· = '0')

/-- JS truthiness of a JSON.parse result. -/
def jsTruthy : JValue → Bool
  | JValue.jnull => false
  | JValue.jbool b => b
  | JValue.jnum raw => !(numLexIsZero raw)
  | JValue.jstr s => if s = "" then false else true
  | JValue.jarr _ => true
  | JValue.jobj _ => true

mutual

/-- JS string coercion of a JSON.parse result, used by the += on the token
path.  Exact for strings (the only case any claim reaches); numeric
formatting and array element rendering are close approximations of the JS
ToString behaviour. -/
def jsToString : JValue → String
  | JValue.jnull => "null"
  | JValue.jbool true => "true"
  | JValue.jbool false => "false"
  | JValue.jnum raw => raw
  | JValue.jstr s => s
  | JValue.jarr es => jsToStringList es
  | JValue.jobj _ => "[object Object]"

def jsToStringList : List JValue → String
  | [] => ""
  | [v] => jsToString v
  | v :: vs => jsToString v ++ "," ++ jsToStringList vs

end

/-- The typed-variant payload shape (section 4.2 of the spec). -/
def typedPayload (t s : String) : JValue :=
  JValue.jobj [("type", JValue.jstr t), ("content", JValue.jstr s)]

/-- The token-variant payload shape (section 4.2 of the spec). -/
def tokenPayload (s : String) : JValue :=
  JValue.jobj [("response", JValue.jstr s)]

/-! ## The src/static/main.js stream loop (sendMessage, lines 284-367)

State of one exchange: the fullMessage accumulator and the content shown in
the assistant message element.  The markdown rendering (marked.parse,
hljs) is the excluded view layer; displayed holds the markdown source the
element renders.  -/

structure MainSt where
  fullMessage : String
  displayed : String
deriving DecidableEq

/-- assistantMessageEl.textContent is set before the stream starts. -/
def mainInit : MainSt :=
  { fullMessage := "", displayed := "Assistant is typing..." }

/-- Body of the try block at main.js lines 341-355 for a parsed payload:
if (data.response) then fullMessage += data.response and the element is
re-rendered from fullMessage.  No other payload shape does anything.  -/
def applyMainData (st : MainSt) (v : JValue) : MainSt :=
  match jsGet v "response" with
  | some r =>
    if jsTruthy r then
      { fullMessage := st.fullMessage ++ jsToString r,
        displayed := st.fullMessage ++ jsToString r }
    else st
  | none => st

/-- One line of the for loop at main.js lines 338-360: the event-frame
prefix filter, JSON.parse inside try/catch (a parse throw is caught and the
loop continues with the next line).  -/
def mainLine (st : MainSt) (line : String) : MainSt :=
  if jsStartsWith line "data: " then
    match parseJson (jsDrop line 6) with
    | some v => applyMainData st v
    | none => st
  else st

/-- One reader.read() chunk: decoded to text and split on the newline, each
piece processed in order.  There is no pending-fragment carry between
chunks in the source. -/
def mainChunk (st : MainSt) (chunk : String) : MainSt :=
  (jsSplitNl chunk).foldl mainLine st

/-- A whole exchange: the delivered chunks in arrival order, then the catch
at main.js lines 363-366 if the transport failed (err = true), which sets
assistantMessageEl.textContent to the error string. -/
def mainRun (chunks : List String) (err : Bool) : MainSt :=
  let st := chunks.foldl mainChunk mainInit
  if err then { st with displayed := "Error: Failed to send message" } else st

/-! ## The src/unnamed/part_000 stream loop (sendMessage, lines 311-451)

State of one exchange: the chain-of-thought container, the role span shown
with it, the two display flags, the final answer container, the two
role-tagged response logs, the number of inserted reasoning toggles and
the typing indicator. -/

structure ChainSt where
  chainHTML : String
  roleLabel : Option String
  chainVisible : Bool
  finalVisible : Bool
  finalAnswer : String
  criticResponses : List String
  responderResponses : List String
  toggleCount : Nat
  indicator : Bool
deriving DecidableEq

def chainInit : ChainSt :=
  { chainHTML := "", roleLabel := none, chainVisible := true, finalVisible := false,
    finalAnswer := "", criticResponses := [], responderResponses := [],
    toggleCount := 0, indicator := true }

/-- The role shown by the roleSpan at part_000 line 404: a ternary on
includes, falling back to Responder when no marker occurs. -/
def shownRole (s : String) : String :=
  if jsIncludes s "Critic:" then "Critic" else "Responder"

/-- Body of the try block at part_000 lines 383-433 for a parsed payload.
The chain branch first clears the chain container, stores the content in a
role log chosen by includes tests (Critic: tested first, anywhere in the
string), then renders the content with its role span.  The final branch
hides the chain container, shows the final container, stores the content
and inserts one more reasoning toggle.  A non-string content makes the
includes call (chain) or the markdown render (final) throw; the catch at
lines 434-436 then leaves the mutations already applied in place. -/
def applyChainData (st : ChainSt) (v : JValue) : ChainSt :=
  match jsGet v "type" with
  | some (JValue.jstr t) =>
    if t = "chain" then
      let st1 := { st with chainHTML := "", roleLabel := none }
      match jsGet v "content" with
      | some (JValue.jstr s) =>
        let st2 :=
          if jsIncludes s "Critic:" then
            { st1 with criticResponses := st1.criticResponses ++ [s] }
          else if jsIncludes s "Responder:" then
            { st1 with responderResponses := st1.responderResponses ++ [s] }
          else st1
        { st2 with chainHTML := s, roleLabel := some (shownRole s) }
      | _ => st1
    else if t = "final" then
      let st1 := { st with chainVisible := false, finalVisible := true }
      match jsGet v "content" with
      | some (JValue.jstr s) =>
        { st1 with finalAnswer := s, toggleCount := st1.toggleCount + 1 }
      | _ => st1
    else st
  | _ => st

/-- One line of the for loop at part_000 lines 380-438, with the same
prefix filter and try/catch as the main.js loop. -/
def partLine (st : ChainSt) (line : String) : ChainSt :=
  if jsStartsWith line "data: " then
    match parseJson (jsDrop line 6) with
    | some v => applyChainData st v
    | none => st
  else st

/-- One reader.read() chunk, split on the newline with no carry between
chunks, as in the source. -/
def partChunk (st : ChainSt) (chunk : String) : ChainSt :=
  (jsSplitNl chunk).foldl partLine st

/-- A whole exchange: the delivered chunks, then the catch at part_000
lines 443-445 on transport failure (which overwrites the chain container
with the error string), then the finally at lines 446-450 which always
tears the typing indicator down. -/
def partRun (chunks : List String) (err : Bool) : ChainSt :=
  let st := chunks.foldl partChunk chainInit
  let st1 :=
    if err then { st with chainHTML := "Error: Failed to send message", roleLabel := none }
    else st
  { st1 with indicator := false }

/-! ## Derived observables -/

inductive Phase where
  | idle
  | streamingChain
  | streamingFinal
deriving DecidableEq

/-- A chain segment has been rendered into the exchange. -/
def chainStarted (st : ChainSt) : Bool :=
  st.roleLabel.isSome || !(st.chainHTML = "")

/-- The visible phase of a part_000 exchange, read off the state: the final
container shown means the final phase; otherwise a rendered chain segment
means the chain phase.  The user toggle only changes chainVisible and so
never changes the phase. -/
def phase (st : ChainSt) : Phase :=
  if st.finalVisible then Phase.streamingFinal
  else if chainStarted st then Phase.streamingChain
  else Phase.idle

def phaseIdx : Phase → Nat
  | Phase.idle => 0
  | Phase.streamingChain => 1
  | Phase.streamingFinal => 2

/-- Well-formed protocol payload: whenever the type discriminator selects
the chain or final branch, the content is a string (as in both shapes of
section 4.2 of the spec).  Everything else, including frames of the token
variant and unrecognized types, is also allowed: those take no branch. -/
def wfPayload (v : JValue) : Bool :=
  match jsGet v "type" with
  | some (JValue.jstr t) =>
    if t = "chain" ∨ t = "final" then
      match jsGet v "content" with
      | some (JValue.jstr _) => true
      | _ => false
    else true
  | _ => true

/-- A line is well formed when it is ignorable, malformed (JSON.parse
fails), or carries a well-formed payload. -/
def wfLineB (line : String) : Bool :=
  if jsStartsWith line "data: " then
    match parseJson (jsDrop line 6) with
    | some v => wfPayload v
    | none => true
  else true

/-- Earliest-marker-occurrence classifier, written from the words of
section 4.3 of the spec (first matching marker wins, position tie-break,
unknown when neither marker occurs), for comparison against the source's
includes-based tests. -/
inductive Role where
  | critic
  | responder
  | unknown
deriving DecidableEq

def specEarliestMarkerRole (s : String) : Role :=
  match jsIndexOfSub s "Critic:", jsIndexOfSub s "Responder:" with
  | some i, some j => if i ≤ j then Role.critic else Role.responder
  | some _, none => Role.critic
  | none, some _ => Role.responder
  | none, none => Role.unknown

/-! ## Two overlapping exchanges (session dispatcher level)

Each sendMessage invocation owns its closure state and processes its own
chunks; the source has no exchange id, no AbortController and no
cancellation of a prior exchange, so an interleaved execution of two
exchanges is the interleaving of two independent folds.  A tagged line
(false = first exchange, true = second exchange) is processed by the
pipeline of its own exchange, whatever the other has done. -/

def twoStep (p : MainSt × MainSt) (bl : Bool × String) : MainSt × MainSt :=
  if bl.fst then (p.fst, mainLine p.snd bl.snd) else (mainLine p.fst bl.snd, p.snd)

def runTwo (ls : List (Bool × String)) : MainSt × MainSt :=
  ls.foldl twoStep (mainInit, mainInit)

/-- The lines belonging to one of the two exchanges, in arrival order. -/
def linesFor (b : Bool) (ls : List (Bool × String)) : List String :=
  (ls.filter (fun bl => bl.fst == b)).map Prod.snd

/-! ## sendMessage entry (empty-input guard)

Shared page state touched by the entry of sendMessage: main.js lines
284-297 and part_000 lines 311-320.  The Bool records whether the call
proceeds past the guard (creating the message elements and issuing the
network request). -/

structure GlobalSt where
  currentChatId : Option Nat
  lastUserMessage : String
  messages : List String
  inputValue : String
deriving DecidableEq

/-- message = input.value.trim(); if (!message) return; — only reads happen
before the guard; past it, lastUserMessage is set, the user message element
is appended and the input is cleared before the request is issued. -/
def sendMessageEntry (g : GlobalSt) : GlobalSt × Bool :=
  let message := jsTrim g.inputValue
  if message = "" then (g, false)
  else
    ({ g with lastUserMessage := message,
              messages := g.messages ++ [message],
              inputValue := "" }, true)

/-! ## Helper lemmas -/

lemma strAppendNil (s : String) : s ++ "" = s := by
  cases s with
  | mk d =>
    show String.mk (d ++ []) = String.mk d
    rw [List.append_nil]

/-- Unfolding of the chain branch of the part_000 dispatch for any payload
whose discriminator and content have the given shapes. -/
lemma applyChain_type_chain (st : ChainSt) (v : JValue) (s : String)
    (ht : jsGet v "type" = some (JValue.jstr "chain"))
    (hcon : jsGet v "content" = some (JValue.jstr s)) :
    applyChainData st v =
      if jsIncludes s "Critic:" then
        { st with chainHTML := s, roleLabel := some (shownRole s),
                  criticResponses := st.criticResponses ++ [s] }
      else if jsIncludes s "Responder:" then
        { st with chainHTML := s, roleLabel := some (shownRole s),
                  responderResponses := st.responderResponses ++ [s] }
      else { st with chainHTML := s, roleLabel := some (shownRole s) } := by
  unfold applyChainData
  rw [ht, hcon]
  cases h1 : jsIncludes s "Critic:" <;> cases h2 : jsIncludes s "Responder:" <;>
    simp [h1, h2]

/-- Unfolding of the final branch of the part_000 dispatch. -/
lemma applyChain_type_final (st : ChainSt) (v : JValue) (s : String)
    (ht : jsGet v "type" = some (JValue.jstr "final"))
    (hcon : jsGet v "content" = some (JValue.jstr s)) :
    applyChainData st v =
      { st with chainVisible := false, finalVisible := true,
                finalAnswer := s, toggleCount := st.toggleCount + 1 } := by
  unfold applyChainData
  rw [ht, hcon]
  rfl

lemma phaseIdx_le_two (p : Phase) : phaseIdx p ≤ 2 := by
  cases p <;> simp [phaseIdx]

lemma finalVisible_false_of (st : ChainSt) (hf : ¬st.finalVisible = true) :
    st.finalVisible = false := by
  revert hf
  cases st.finalVisible <;> simp

lemma phaseIdx_le_one_of (st : ChainSt) (h : st.finalVisible = false) :
    phaseIdx (phase st) ≤ 1 := by
  unfold phase
  rw [h]
  by_cases hc : chainStarted st <;> simp [hc, phaseIdx]

/-- Per-payload phase monotonicity of the part_000 dispatch for well-formed
payloads. -/
lemma phase_mono_data (st : ChainSt) (v : JValue) (h : wfPayload v = true) :
    phaseIdx (phase st) ≤ phaseIdx (phase (applyChainData st v)) := by
  rcases ht : jsGet v "type" with _ | w
  · have he : applyChainData st v = st := by unfold applyChainData; rw [ht]
    rw [he]
  · cases w with
    | jnull =>
      have he : applyChainData st v = st := by unfold applyChainData; rw [ht]
      rw [he]
    | jbool b =>
      have he : applyChainData st v = st := by unfold applyChainData; rw [ht]
      rw [he]
    | jnum raw =>
      have he : applyChainData st v = st := by unfold applyChainData; rw [ht]
      rw [he]
    | jarr es =>
      have he : applyChainData st v = st := by unfold applyChainData; rw [ht]
      rw [he]
    | jobj ms =>
      have he : applyChainData st v = st := by unfold applyChainData; rw [ht]
      rw [he]
    | jstr t =>
      by_cases hch : t = "chain"
      · subst hch
        rcases hcon : jsGet v "content" with _ | u
        · exfalso
          simp [wfPayload, ht, hcon] at h
        · cases u with
          | jstr s =>
            rw [applyChain_type_chain st v s ht hcon]
            by_cases hf : st.finalVisible
            · split_ifs <;> simp [phase, hf, phaseIdx]
            · have hf' := finalVisible_false_of st hf
              have hle := phaseIdx_le_one_of st hf'
              split_ifs <;>
                simpa [phase, chainStarted, hf', phaseIdx] using hle
          | jnull => exfalso; simp [wfPayload, ht, hcon] at h
          | jbool b => exfalso; simp [wfPayload, ht, hcon] at h
          | jnum raw => exfalso; simp [wfPayload, ht, hcon] at h
          | jarr es => exfalso; simp [wfPayload, ht, hcon] at h
          | jobj ms => exfalso; simp [wfPayload, ht, hcon] at h
      · by_cases hfin : t = "final"
        · subst hfin
          rcases hcon : jsGet v "content" with _ | u
          · exfalso
            simp [wfPayload, ht, hcon] at h
          · cases u with
            | jstr s =>
              rw [applyChain_type_final st v s ht hcon]
              refine le_trans (phaseIdx_le_two _) ?_
              simp [phase, phaseIdx]
            | jnull => exfalso; simp [wfPayload, ht, hcon] at h
            | jbool b => exfalso; simp [wfPayload, ht, hcon] at h
            | jnum raw => exfalso; simp [wfPayload, ht, hcon] at h
            | jarr es => exfalso; simp [wfPayload, ht, hcon] at h
            | jobj ms => exfalso; simp [wfPayload, ht, hcon] at h
        · have he : applyChainData st v = st := by
            unfold applyChainData
            rw [ht]
            simp [hch, hfin]
          rw [he]

/-- Per-line phase monotonicity. -/
lemma phase_mono_line (st : ChainSt) (line : String) (h : wfLineB line = true) :
    phaseIdx (phase st) ≤ phaseIdx (phase (partLine st line)) := by
  by_cases hs : jsStartsWith line "data: "
  · rcases hp : parseJson (jsDrop line 6) with _ | v
    · simp [partLine, hs, hp]
    · have hwf : wfPayload v = true := by
        have h' := h
        simp [wfLineB, hs, hp] at h'
        exact h'
      have he : partLine st line = applyChainData st v := by simp [partLine, hs, hp]
      rw [he]
      exact phase_mono_data st v hwf
  · simp [partLine, hs]

lemma phase_mono_fold (lines : List String) :
    ∀ st : ChainSt, (∀ l ∈ lines, wfLineB l = true) →
      phaseIdx (phase st) ≤ phaseIdx (phase (List.foldl partLine st lines)) := by
  induction lines with
  | nil => intro st _; simp
  | cons l ls ih =>
    intro st h
    have h1 := phase_mono_line st l (h l (by simp))
    have h2 := ih (partLine st l) (fun x hx => h x (by simp [hx]))
    simpa using le_trans h1 h2

lemma runTwo_aux (ls : List (Bool × String)) :
    ∀ p : MainSt × MainSt,
      List.foldl twoStep p ls =
        (List.foldl mainLine p.1 (linesFor false ls),
         List.foldl mainLine p.2 (linesFor true ls)) := by
  induction ls with
  | nil => intro p; simp [linesFor]
  | cons hd tl ih =>
    intro p
    rcases hd with ⟨b, line⟩
    cases b <;> simp [linesFor, List.filter_cons, twoStep, ih]

/-! ## Claims -/

/-- Claim C1.  The scenario of section 8 of the spec: the same frame sent
whole is decoded, but split across two chunk reads it is dropped entirely —
the loop splits each chunk independently and keeps no pending fragment, so
reassembly is not lossless and the result depends on where the chunk
boundaries fall. -/
theorem c1_split_frame_dropped :
    (mainRun ["data: \x7b\"response\":\"Hello\"\x7d\n"] false).fullMessage = "Hello" ∧
    (mainRun ["data: \x7b\"response\":\"Hel", "lo\"\x7d\n"] false).fullMessage = "" := by
  decide

/-- Claim C2.  A frame line whose payload fails to parse leaves the state
unchanged, the fold over the surrounding lines continues as if the line
were absent, and the phase does not change: the parse throw is caught
inside the loop. -/
theorem c2_malformed_frame_noop (st : ChainSt) (line : String) (pre post : List String)
    (h1 : jsStartsWith line "data: " = true)
    (h2 : parseJson (jsDrop line 6) = none) :
    partLine st line = st ∧
    List.foldl partLine st (pre ++ line :: post) = List.foldl partLine st (pre ++ post) ∧
    phase (partLine st line) = phase st := by
  have hl : ∀ st' : ChainSt, partLine st' line = st' := by
    intro st'
    simp [partLine, h1, h2]
  refine ⟨hl st, ?_, by rw [hl]⟩
  rw [List.foldl_append, List.foldl_append, List.foldl_cons, hl]

/-- Claim C2 witness: a concrete malformed frame between no other lines. -/
theorem c2_witness :
    (jsStartsWith "data: \x7bnot json" "data: " = true) ∧
    (parseJson (jsDrop "data: \x7bnot json" 6) = none) ∧
    (partLine chainInit "data: \x7bnot json" = chainInit ∧
     List.foldl partLine chainInit ([] ++ "data: \x7bnot json" :: []) =
       List.foldl partLine chainInit ([] ++ []) ∧
     phase (partLine chainInit "data: \x7bnot json") = phase chainInit) :=
  ⟨rfl, rfl, c2_malformed_frame_noop chainInit "data: \x7bnot json" [] [] rfl rfl⟩

/-- Claim C3 counterexample.  No single pipeline accepts both variants: the
part_000 pipeline leaves the state unchanged on a token frame, and the
main.js pipeline leaves the state unchanged on a typed frame. -/
theorem c3_counterexample :
    partLine chainInit "data: \x7b\"response\":\"Hello\"\x7d" = chainInit ∧
    mainLine mainInit "data: \x7b\"type\":\"final\",\"content\":\"Hello\"\x7d" = mainInit := by
  decide

/-- Claim C3 (amended).  The two variants are handled by two separate
pipelines: main.js reacts only to a response field (typed frames are
no-ops) and part_000 reacts only to a type discriminator (token frames are
no-ops); each produces the corresponding update for its own variant. -/
theorem c3_two_pipelines (stM : MainSt) (stP : ChainSt) (s : String) :
    applyMainData stM (typedPayload "final" s) = stM ∧
    applyChainData stP (tokenPayload s) = stP ∧
    (applyChainData stP (typedPayload "final" s)).finalAnswer = s ∧
    (applyChainData stP (typedPayload "final" s)).finalVisible = true ∧
    (applyMainData stM (tokenPayload s)).fullMessage = stM.fullMessage ++ s := by
  refine ⟨rfl, rfl, rfl, rfl, ?_⟩
  by_cases hs : s = ""
  · subst hs
    show stM.fullMessage = stM.fullMessage ++ ""
    exact (strAppendNil _).symm
  · have hr : jsGet (tokenPayload s) "response" = some (JValue.jstr s) := rfl
    have htr : jsTruthy (JValue.jstr s) = true := by simp [jsTruthy, hs]
    simp [applyMainData, hr, htr, jsToString]

/-- Claim C4 counterexample.  A content in which the Responder marker
occurs strictly earlier than the Critic marker is nevertheless classified
as critic by the code (includes tests Critic first, anywhere in the
string), while the spec's earliest-occurrence rule assigns responder. -/
theorem c4_counterexample :
    (applyChainData chainInit
        (typedPayload "chain" "Responder: yes. Critic: no.")).criticResponses =
      ["Responder: yes. Critic: no."] ∧
    (applyChainData chainInit
        (typedPayload "chain" "Responder: yes. Critic: no.")).responderResponses = [] ∧
    specEarliestMarkerRole "Responder: yes. Critic: no." = Role.responder := by
  decide

/-- Claim C4 (amended).  On a chain event the stored role is critic
whenever the content contains the Critic marker anywhere, else responder if
it contains the Responder marker, else neither log is touched; the
displayed role label falls back to Responder when no marker occurs; and the
content is stored and rendered whole, never mutated or truncated. -/
theorem c4_role_assignment (st : ChainSt) (s : String) :
    applyChainData st (typedPayload "chain" s) =
      { st with
          chainHTML := s,
          roleLabel := some (if jsIncludes s "Critic:" then "Critic" else "Responder"),
          criticResponses :=
            st.criticResponses ++ (if jsIncludes s "Critic:" then [s] else []),
          responderResponses :=
            st.responderResponses ++
              (if jsIncludes s "Critic:" then []
               else if jsIncludes s "Responder:" then [s] else []) } := by
  rw [applyChain_type_chain st (typedPayload "chain" s) s rfl rfl]
  cases h1 : jsIncludes s "Critic:" <;> cases h2 : jsIncludes s "Responder:" <;>
    simp [shownRole, h1, h2]

/-- Claim C5 counterexample.  After two chain events the panel holds only
the second segment; the first segment is gone from the display. -/
theorem c5_counterexample :
    ((["data: \x7b\"type\":\"chain\",\"content\":\"Critic: a\"\x7d",
       "data: \x7b\"type\":\"chain\",\"content\":\"Responder: b\"\x7d"].foldl
         partLine chainInit).chainHTML = "Responder: b") ∧
    jsIncludes
      (["data: \x7b\"type\":\"chain\",\"content\":\"Critic: a\"\x7d",
        "data: \x7b\"type\":\"chain\",\"content\":\"Responder: b\"\x7d"].foldl
          partLine chainInit).chainHTML "Critic: a" = false := by
  decide

/-- Claim C5 (amended).  Each chain event clears the panel and rebuilds it
from only that event's segment: whatever happened before, after a chain
event the panel equals exactly the latest segment. -/
theorem c5_panel_shows_latest_only (st : ChainSt) (vs : List JValue) (s : String) :
    (List.foldl applyChainData st (vs ++ [typedPayload "chain" s])).chainHTML = s := by
  rw [List.foldl_append, List.foldl_cons, List.foldl_nil]
  rw [applyChain_type_chain _ (typedPayload "chain" s) s rfl rfl]
  split_ifs <;> rfl

/-- Claim C6 counterexample.  Content accumulated before a transport error
is not left displayed: the catch replaces the displayed assistant content
with the error text, which does not contain the accumulated fragment. -/
theorem c6_counterexample :
    (mainRun ["data: \x7b\"response\":\"Hello\"\x7d\n"] false).fullMessage = "Hello" ∧
    (mainRun ["data: \x7b\"response\":\"Hello\"\x7d\n"] true).displayed =
      "Error: Failed to send message" ∧
    jsIncludes (mainRun ["data: \x7b\"response\":\"Hello\"\x7d\n"] true).displayed
      "Hello" = false := by
  decide

/-- Claim C6 (amended).  On transport failure main.js unconditionally
replaces the displayed assistant content with the error text (the
fullMessage accumulator variable itself is untouched but no longer shown),
and part_000 overwrites only the chain container, leaving the final answer
and its visibility as they were. -/
theorem c6_error_overwrites_display (chunks : List String) :
    (mainRun chunks true).displayed = "Error: Failed to send message" ∧
    (mainRun chunks true).fullMessage = (mainRun chunks false).fullMessage ∧
    (partRun chunks true).chainHTML = "Error: Failed to send message" ∧
    (partRun chunks true).finalAnswer = (partRun chunks false).finalAnswer ∧
    (partRun chunks true).finalVisible = (partRun chunks false).finalVisible :=
  ⟨rfl, rfl, rfl, rfl, rfl⟩

/-- Claim C7.  A decoded token frame appends its fragment to fullMessage
(in arrival position), and the displayed content is rebuilt from the
accumulated fullMessage; the main.js pipeline has no reasoning state at
all, so token streams never enter a chain phase. -/
theorem c7_token_appends (st : MainSt) (line s : String)
    (h1 : jsStartsWith line "data: " = true)
    (h2 : parseJson (jsDrop line 6) = some (tokenPayload s)) :
    (mainLine st line).fullMessage = st.fullMessage ++ s ∧
    (mainLine st line).displayed =
      (if s = "" then st.displayed else st.fullMessage ++ s) := by
  have hm : mainLine st line = applyMainData st (tokenPayload s) := by
    simp [mainLine, h1, h2]
  rw [hm]
  by_cases hs : s = ""
  · subst hs
    constructor
    · show st.fullMessage = st.fullMessage ++ ""
      exact (strAppendNil _).symm
    · rfl
  · have hr : jsGet (tokenPayload s) "response" = some (JValue.jstr s) := rfl
    have htr : jsTruthy (JValue.jstr s) = true := by simp [jsTruthy, hs]
    constructor <;> simp [applyMainData, hr, htr, jsToString, hs]

/-- Claim C7 witness: the token frame of the section 8 scenario. -/
theorem c7_witness :
    (jsStartsWith "data: \x7b\"response\":\"Hello\"\x7d" "data: " = true) ∧
    (parseJson (jsDrop "data: \x7b\"response\":\"Hello\"\x7d" 6) =
      some (tokenPayload "Hello")) ∧
    ((mainLine mainInit "data: \x7b\"response\":\"Hello\"\x7d").fullMessage =
        mainInit.fullMessage ++ "Hello" ∧
     (mainLine mainInit "data: \x7b\"response\":\"Hello\"\x7d").displayed =
        (if ("Hello" : String) = "" then mainInit.displayed
         else mainInit.fullMessage ++ "Hello")) :=
  ⟨rfl, rfl, c7_token_appends mainInit "data: \x7b\"response\":\"Hello\"\x7d" "Hello" rfl rfl⟩

/-- Claim C8.  Over any sequence of well-formed lines, the phase index
never decreases, and once the final phase is reached it persists — a later
chain event after a final event never returns the visible state to the
chain phase. -/
theorem c8_phase_monotone (st : ChainSt) (lines : List String)
    (h : ∀ l ∈ lines, wfLineB l = true) :
    phaseIdx (phase st) ≤ phaseIdx (phase (List.foldl partLine st lines)) ∧
    (phase st = Phase.streamingFinal →
      phase (List.foldl partLine st lines) = Phase.streamingFinal) := by
  refine ⟨phase_mono_fold lines st h, fun hfin => ?_⟩
  have h1 := phase_mono_fold lines st h
  rw [hfin] at h1
  cases hres : phase (List.foldl partLine st lines)
  · rw [hres] at h1; simp [phaseIdx] at h1
  · rw [hres] at h1; simp [phaseIdx] at h1
  · rfl

/-- Claim C8 witness: a chain frame followed by a final frame, both
well formed, from a fresh exchange. -/
theorem c8_witness :
    (∀ l ∈ (["data: \x7b\"type\":\"chain\",\"content\":\"Critic: too vague\"\x7d",
             "data: \x7b\"type\":\"final\",\"content\":\"Done.\"\x7d"] : List String),
        wfLineB l = true) ∧
    (phaseIdx (phase chainInit) ≤
        phaseIdx (phase (List.foldl partLine chainInit
          ["data: \x7b\"type\":\"chain\",\"content\":\"Critic: too vague\"\x7d",
           "data: \x7b\"type\":\"final\",\"content\":\"Done.\"\x7d"])) ∧
     (phase chainInit = Phase.streamingFinal →
        phase (List.foldl partLine chainInit
          ["data: \x7b\"type\":\"chain\",\"content\":\"Critic: too vague\"\x7d",
           "data: \x7b\"type\":\"final\",\"content\":\"Done.\"\x7d"]) =
          Phase.streamingFinal)) :=
  ⟨by decide, c8_phase_monotone chainInit
    ["data: \x7b\"type\":\"chain\",\"content\":\"Critic: too vague\"\x7d",
     "data: \x7b\"type\":\"final\",\"content\":\"Done.\"\x7d"] (by decide)⟩

/-- Claim C9 counterexample.  A line of the first exchange arriving after
the second exchange has started is still processed: the first exchange's
accumulator ends as both fragments, not as the single pre-supersession
fragment the claim's cancellation would leave. -/
theorem c9_counterexample :
    (runTwo [(false, "data: \x7b\"response\":\"a\"\x7d"),
             (true, "data: \x7b\"response\":\"x\"\x7d"),
             (false, "data: \x7b\"response\":\"b\"\x7d")]).fst.fullMessage = "ab" ∧
    ¬((runTwo [(false, "data: \x7b\"response\":\"a\"\x7d"),
               (true, "data: \x7b\"response\":\"x\"\x7d"),
               (false, "data: \x7b\"response\":\"b\"\x7d")]).fst.fullMessage = "a") := by
  decide

/-- Claim C9 (amended).  There is no cancellation mechanism: in any
interleaving of two exchanges, each exchange processes exactly its own
lines in order, regardless of anything the other exchange does — a
superseded exchange keeps consuming and applying its events. -/
theorem c9_no_cancellation (ls : List (Bool × String)) :
    runTwo ls = (List.foldl mainLine mainInit (linesFor false ls),
                 List.foldl mainLine mainInit (linesFor true ls)) :=
  runTwo_aux ls (mainInit, mainInit)

/-- Claim C10.  When the message input trims to the empty string,
sendMessage returns at the guard: no state is changed, no message element
is appended and the call does not proceed to issue a request. -/
theorem c10_empty_input_noop (g : GlobalSt) (h : jsTrim g.inputValue = "") :
    sendMessageEntry g = (g, false) := by
  simp [sendMessageEntry, h]

/-- Claim C10 witness: whitespace-only input against a populated state. -/
theorem c10_witness :
    (jsTrim "  \t " = "") ∧
    sendMessageEntry (GlobalSt.mk (some 7) "prev" ["m"] "  \t ") =
      (GlobalSt.mk (some 7) "prev" ["m"] "  \t ", false) :=
  ⟨by decide, c10_empty_input_noop (GlobalSt.mk (some 7) "prev" ["m"] "  \t ") (by decide)⟩

end Kodah
